import Mathlib

/-!
A shallow embedding of the OctoBot policy / ledger / orchestrator triad,
translated from the Python sources:

  octobot/laws/validator.py        (rule catalog, enforce, validate_proposal)
  laws/validator.py                (AST static analyzer)
  octobot/memory/ledger.py         (append-only hash ledger)
  octobot/core/proposal_manager.py (proposal store and lifecycle marks)
  octobot/core/orchestrator.py     (legacy orchestrator)
  refactor_output/octobot/core/orchestrator.py (refactored orchestrator)
  scripts/migrate_coverage_units.py (coverage normalization)

Modelling conventions, stated once:
  * Python floats are modelled as rationals (Rat); the numeric values the
    claims exercise (0.5, 0.9, 0.95, 90, 95, 100) are exactly representable
    either way.
  * Python dicts keyed by strings are modelled as association lists with
    first-match lookup (dictGet / dictSet below).
  * Wall-clock timestamps, logging (log_event), and the evaluator scoring
    cache are external or write-only effects; they are either carried as
    explicit string parameters or omitted, as noted at each definition.
  * Filesystem paths are modelled as lists of components that are taken to
    be already resolved (Path.resolve symlink and dot-dot normalization is
    the operating system's behaviour, outside the embedded code).
-/

namespace OctoBot

/-- Association-list lookup modelling Python dict read d.get(k). -/
def dictGet {α : Type} (d : List (String × α)) (k : String) : Option α :=
  (d.find? fun p => p.1 = k).map Prod.snd

/-- Association-list update modelling Python dict write d[k] = v. -/
def dictSet {α : Type} (d : List (String × α)) (k : String) (v : α) :
    List (String × α) :=
  match d with
  | [] => [(k, v)]
  | p :: rest => if p.1 = k then (k, v) :: rest else p :: dictSet rest k v

/-! ## Rules and the policy engine (octobot/laws/validator.py) -/

/-- Rule dataclass: octobot/laws/validator.py lines 29-32. -/
structure Rule where
  name : String
  description : String
deriving Repr, DecidableEq

/-- One audit record written by _audit (octobot/laws/validator.py lines
98-108).  The wall-clock "time" field is omitted (external clock); the
remaining fields are exactly the entry dict written to the audit log. -/
structure Decision where
  rule : String
  status : String
  description : String
  context : String
deriving Repr, DecidableEq

/-- Python str.lower(), lowercasing each character; written over the
character list so it evaluates by kernel reduction. -/
def strLower (s : String) : String :=
  String.mk (s.data.map Char.toLower)

/-- Python str.upper(), uppercasing each character. -/
def strUpper (s : String) : String :=
  String.mk (s.data.map Char.toUpper)

/-- pat leads the character list hay. -/
def leadsWith : List Char → List Char → Bool
  | _, [] => true
  | [], _ :: _ => false
  | a :: as, b :: bs => a = b && leadsWith as bs

/-- Python str.endswith(pat): pat is a terminal segment of s. -/
def strEndsWith (s pat : String) : Bool :=
  leadsWith s.data.reverse pat.data.reverse

/-- Split a character list at a separator character, the semantics of
Python str.split(sep) for a one-character separator: the (possibly empty)
runs between occurrences, with the empty string splitting to [""]. -/
def splitChars (sep : Char) : List Char → List (List Char)
  | [] => [[]]
  | c :: cs =>
    let rest := splitChars sep cs
    if c = sep then [] :: rest
    else
      match rest with
      | [] => [[c]]
      | g :: gs => (c :: g) :: gs

/-- Python str.strip(): drop whitespace from both ends. -/
def strStrip (s : String) : String :=
  String.mk
    (((s.data.dropWhile Char.isWhitespace).reverse.dropWhile Char.isWhitespace).reverse)

/-- within_directory (octobot/memory/utils.py lines 92-98): path resides
inside directory.  Paths are resolved component lists; relative_to succeeds
exactly when directory's components lead the path (including equality). -/
def withinDirectory : List String → List String → Bool
  | _, [] => true
  | [], _ :: _ => false
  | p :: ps, d :: ds => p = d && withinDirectory ps ds

/-- The allow-listed directories of _check_filesystem (octobot/laws/
validator.py lines 111-120), with the repository root modelled as the
single component "repo": proposals_root, ventures, docs, memory. -/
def allowedWriteRoots : List (List String) :=
  [["repo", "proposals"], ["repo", "ventures"], ["repo", "docs"], ["repo", "memory"]]

/-- Split a path string into resolved components (empty segments dropped),
the counterpart of constructing Path(context) on an absolute path. -/
def splitPath (s : String) : List String :=
  ((splitChars '/' s.data).map String.mk).filter fun seg => seg ≠ ""

/-- _check_filesystem (octobot/laws/validator.py lines 111-120). -/
def checkFilesystem (context : String) : Bool :=
  allowedWriteRoots.any fun directory => withinDirectory (splitPath context) directory

/-- _is_allowed (octobot/laws/validator.py lines 123-132).  The module
global _REGISTERED_AGENTS set is passed explicitly as a list. -/
def isAllowed (registeredAgents : List String) (rule : Rule) (context : String) : Bool :=
  if rule.name = "external_request" then
    strEndsWith context "connectors/unreal_bridge.py"
  else if rule.name = "filesystem_write" then
    checkFilesystem context
  else if rule.name = "code_merge" then
    strLower context = "approved"
  else if rule.name = "agent_entry" then
    registeredAgents.contains context
  else
    true

/-- enforce (octobot/laws/validator.py lines 135-148).  The rule catalog
dict from _load_rules is an association list keyed by rule name.  The
result pairs the audit records appended by _audit (in order) with the
call's outcome: ok true for a normal return, error for a raised
RuleViolationError carrying its message.  log_event is write-only logging
and is omitted. -/
def enforce (rules : List Rule) (registeredAgents : List String)
    (ruleName context : String) : List Decision × Except String Bool :=
  match rules.find? fun r => r.name = ruleName with
  | none => ([], Except.error ("Unknown rule " ++ ruleName))
  | some rule =>
    let allowed := isAllowed registeredAgents rule context
    let status := if allowed then "allowed" else "blocked"
    let decision : Decision :=
      { rule := rule.name, status := status,
        description := rule.description, context := context }
    if allowed then
      ([decision], Except.ok true)
    else
      ([decision], Except.error rule.description)

/-! ## Proposal validation (octobot/laws/validator.py, validate_proposal) -/

/-- ValidationReport dataclass: octobot/laws/validator.py lines 35-41. -/
structure ValidationReport where
  proposal_id : String
  compliant : Bool
  issues : List String
  coverage : Rat
  summary : String
deriving Repr, DecidableEq

/-- Quality gates read by _load_quality_gates from tech_standards.yaml
(octobot/laws/validator.py lines 157-164 and 180-181, 188-190): the
min_coverage float and the two require flags, with the defaults the code
supplies on get. -/
structure QualityGates where
  min_coverage : Rat
  require_rationale : Bool
  require_diff : Bool
deriving Repr, DecidableEq

/-- The inputs validate_proposal reads from the proposal directory and the
loaded YAML metadata (octobot/laws/validator.py lines 170-210), with
Python truthiness made explicit:
  hasMetadata      - load_yaml(proposal.yaml) is a non-empty mapping;
  metaId           - metadata.get("id"), none when absent;
  metaSummary      - str(metadata.get("summary", ""));
  metaCoverage     - float(metadata.get("coverage", 0.0) or 0.0);
  rationaleExists / diffExists / impactExists - file existence;
  impactIsDict     - json.loads(impact.json) yields a dict;
  impactNonempty   - that dict is non-empty (Python truthiness of impact);
  impactRisk       - impact.get("risk"), none when absent;
  impactSimulatedTransactions - truthiness of
                     impact.get("simulated_transactions");
  ethics           - the principle strings from _load_ethics. -/
structure ProposalInput where
  proposalId : String
  hasMetadata : Bool
  metaId : Option String
  metaSummary : String
  metaCoverage : Rat
  rationaleExists : Bool
  diffExists : Bool
  impactExists : Bool
  impactIsDict : Bool
  impactNonempty : Bool
  impactRisk : Option String
  impactSimulatedTransactions : Bool
  ethics : List String
deriving Repr, DecidableEq

/-- Python int() truncation toward zero on a rational. -/
def pyInt (q : Rat) : Int :=
  q.num / (q.den : Int)

/-- pat occurs contiguously inside hay. -/
def hasSub : List Char → List Char → Bool
  | [], pat => pat.isEmpty
  | a :: as, pat => leadsWith (a :: as) pat || hasSub as pat

/-- The Python membership test needle in hay on strings. -/
def strContains (hay needle : String) : Bool :=
  hasSub hay.toList needle.toList

/-- validate_proposal (octobot/laws/validator.py lines 167-225): accumulate
the issue strings in source order and report compliant = not issues.
log_event is write-only logging and is omitted; file reads are supplied
through the ProposalInput fields. -/
def validateProposal (quality : QualityGates) (p : ProposalInput) : ValidationReport :=
  let summary := if p.hasMetadata then p.metaSummary else ""
  let coverage := if p.hasMetadata then p.metaCoverage else 0
  let metaId := if p.hasMetadata then p.metaId else none
  let issues : List String :=
    (if coverage < quality.min_coverage then
      ["coverage below " ++ toString (pyInt (quality.min_coverage * 100)) ++ "% threshold"]
    else []) ++
    (if metaId ≠ some p.proposalId then ["proposal id mismatch"] else []) ++
    (if quality.require_rationale && !p.rationaleExists then ["rationale.md is missing"] else []) ++
    (if quality.require_diff && !p.diffExists then ["diff.patch is missing"] else []) ++
    (if strStrip summary = "" then ["proposal summary is empty"] else []) ++
    (if !p.impactExists then ["impact.json is missing"] else []) ++
    (let impactTruthy := p.impactExists && p.impactIsDict && p.impactNonempty
     let riskOk := p.impactRisk = some "low" ∨ p.impactRisk = some "medium" ∨
       p.impactRisk = some "high"
     (if impactTruthy && !(decide riskOk) then
       ["impact.json must define risk as low/medium/high"]
     else []) ++
     (p.ethics.map fun principle =>
       if strContains (strLower principle) "transaction" && impactTruthy &&
           p.impactSimulatedTransactions then
         ["proposals must not include financial transactions"]
       else []).flatten)
  { proposal_id := p.proposalId
    compliant := issues.isEmpty
    issues := issues
    coverage := coverage
    summary := summary }

/-! ## Coverage normalization (scripts/migrate_coverage_units.py) -/

/-- Python round(x, 4) with banker's rounding (round-half-to-even),
modelled exactly on rationals. -/
def roundHalfEven4 (q : Rat) : Rat :=
  let scaled := q * 10000
  let lower : Int := Int.floor scaled
  let frac := scaled - (lower : Rat)
  let n : Int :=
    if frac < 1/2 then lower
    else if frac > 1/2 then lower + 1
    else if lower % 2 = 0 then lower else lower + 1
  (n : Rat) / 10000

/-- _normalize (scripts/migrate_coverage_units.py lines 8-16): divide a
value above 1 by 100, clamp into the unit interval, round to 4 places. -/
def normalizeCoverage (value : Rat) : Rat :=
  let coverage := value
  let coverage := if coverage > 1 then coverage / 100 else coverage
  let coverage := if coverage < 0 then 0 else coverage
  let coverage := if coverage > 1 then 1 else coverage
  roundHalfEven4 coverage

/-! ## Proposal store and orchestrator state
(octobot/core/proposal_manager.py, octobot/core/orchestrator.py,
refactor_output/octobot/core/orchestrator.py) -/

/-- The per-proposal state the lifecycle operations touch: the status that
update_proposal_status and _update_metadata both write, and the coverage
value stored in proposal.yaml. -/
structure ProposalRec where
  status : String
  metaCoverage : Rat
deriving Repr, DecidableEq

/-- The orchestrator's mutable state: the proposal store, the
_validation_reports cache and the _applied_commits map (octobot/core/
orchestrator.py lines 102-104).  Ledger appends, log_event calls and the
_evaluation_scores cache are write-only effects omitted here, noted where
they occur. -/
structure OrchState where
  proposals : List (String × ProposalRec)
  validationReports : List (String × ValidationReport)
  appliedCommits : List (String × String)
deriving Repr, DecidableEq

/-- Apply f to the stored record of pid when present (the combined effect
of update_proposal_status on an existing row and _update_metadata on an
existing proposal.yaml); a missing proposal leaves the store unchanged. -/
def modifyProposal (st : OrchState) (pid : String) (f : ProposalRec → ProposalRec) :
    OrchState :=
  match dictGet st.proposals pid with
  | none => st
  | some r => { st with proposals := dictSet st.proposals pid (f r) }

/-- ProposalManager.mark_ready_for_review (octobot/core/proposal_manager.py
lines 117-122): raise ValueError below 90, else store status "ready" and
the given coverage value into the metadata. -/
def markReadyForReview (st : OrchState) (pid : String) (coverage : Rat) :
    Except String OrchState :=
  if coverage < 90 then
    Except.error "Test coverage must be at least 90% before review"
  else
    Except.ok (modifyProposal st pid fun r =>
      { r with status := "ready", metaCoverage := coverage })

/-- ProposalManager.mark_presented (octobot/core/proposal_manager.py lines
124-126): store status "awaiting_approval". -/
def markPresented (st : OrchState) (pid : String) : OrchState :=
  modifyProposal st pid fun r => { r with status := "awaiting_approval" }

/-- ProposalManager.approve (octobot/core/proposal_manager.py lines
128-134): store status "approved" (the approval_date timestamp is an
external clock value and is omitted). -/
def managerApprove (st : OrchState) (pid : String) : OrchState :=
  modifyProposal st pid fun r => { r with status := "approved" }

/-- Orchestrator._handle_validated of the legacy orchestrator
(octobot/core/orchestrator.py lines 182-227): cache the report rebuilt
from the event payload, stop if non-compliant, convert coverage to percent,
mark ready when the percent reaches 90, then mark the proposal
awaiting_approval unconditionally.  A ValueError out of
mark_ready_for_review would abort the handler inside EventBus.flush before
mark_presented runs (modelled by the error branch; unreachable under the
guard).  Evaluator scoring and history logging are write-only effects
omitted here. -/
def handleValidated (st : OrchState) (pid : String) (report : ValidationReport) :
    OrchState :=
  let st := { st with validationReports := dictSet st.validationReports pid report }
  if !report.compliant then st
  else
    let coveragePercent := report.coverage * 100
    let step :=
      if coveragePercent ≥ 90 then markReadyForReview st pid coveragePercent
      else Except.ok st
    match step with
    | Except.error _ => st
    | Except.ok st2 => markPresented st2 pid

/-- Orchestrator.async_approve_proposal of the legacy orchestrator
(octobot/core/orchestrator.py lines 137-147) together with the
_handle_approved handler it triggers through the event bus (lines
229-282).  External collaborators enter as parameters: testStatus is
tester.run_tests()["status"], applyResult is some commit when the apply
step (or the dry-run shortcut) yields a commit and none when updater.apply
raises.  The returned option is _applied_commits.get(proposal_id).
Ledger append and logging are write-only effects omitted here. -/
def legacyApprove (st : OrchState) (pid : String) (testStatus : String)
    (applyResult : Option String) : OrchState × Option String :=
  match dictGet st.proposals pid with
  | none => (st, none)
  | some _ =>
    let st1 := managerApprove st pid
    let st2 :=
      if testStatus = "passed" || testStatus = "skipped" then
        match applyResult with
        | none => st1
        | some commit =>
          { st1 with appliedCommits := dictSet st1.appliedCommits pid commit }
      else st1
    (st2, dictGet st2.appliedCommits pid)

/-- Orchestrator.async_approve_proposal of the refactored orchestrator
(refactor_output/octobot/core/orchestrator.py lines 140-207), including
_ensure_validation.  freshReport is the validate_proposal result used only
when no report is cached; testStatus and applyResult are the external
collaborators as in legacyApprove.  The Except layer carries an uncaught
ValueError raised by mark_ready_for_review out of _ensure_validation;
Except.ok holds the returned commit option. -/
def refactorApprove (st : OrchState) (pid : String) (freshReport : ValidationReport)
    (testStatus : String) (applyResult : Option String) :
    OrchState × Except String (Option String) :=
  match dictGet st.proposals pid with
  | none => (st, Except.ok none)
  | some _ =>
    let cached := dictGet st.validationReports pid
    let report := cached.getD freshReport
    let st1 :=
      match cached with
      | some _ => st
      | none => { st with validationReports := dictSet st.validationReports pid freshReport }
    let ensured :=
      if report.compliant && report.coverage ≥ 9/10 then
        markReadyForReview st1 pid report.coverage
      else Except.ok st1
    match ensured with
    | Except.error e => (st1, Except.error e)
    | Except.ok st2 =>
      if !report.compliant then (st2, Except.ok none)
      else if report.coverage < 9/10 then (st2, Except.ok none)
      else if !(testStatus = "passed" || testStatus = "skipped") then (st2, Except.ok none)
      else
        match applyResult with
        | none => (st2, Except.ok none)
        | some commit =>
          let st3 := managerApprove st2 pid
          let st4 := { st3 with appliedCommits := dictSet st3.appliedCommits pid commit }
          (st4, Except.ok (some commit))

/-! ## Ledger (octobot/memory/ledger.py) -/

/-- LedgerEntry dataclass (octobot/memory/ledger.py lines 17-25).  The
digest field holds the modelled sha256 value (below). -/
structure LedgerEntry where
  proposal_id : String
  proposer : String
  status : String
  digest : List Nat
  recorded_at : String
deriving Repr, DecidableEq

/-- Bytes of a string (the encode("utf-8") calls); modelled as the
code-point sequence, which is injective on strings like UTF-8 is. -/
def strBytes (s : String) : List Nat :=
  s.toList.map Char.toNat

/-- Modelled from the spec: hashlib.sha256 is a standard-library
cryptographic primitive, not part of this repository.  The spec treats the
digest as a reproducible, tamper-evident hash of its input, so it is
modelled as a collision-free digest function, represented here by the byte
stream fed through its update calls. -/
def sha256 (stream : List Nat) : List Nat :=
  stream

/-- A proposal artifact directory as Ledger._hash_proposal sees it: the
regular files under the proposal path as (relative posix path, content
bytes), already in the sorted(rglob) order, with distinct paths. -/
abbrev ArtifactDir : Type :=
  List (String × List Nat)

/-- Ledger._hash_proposal (octobot/memory/ledger.py lines 65-71): one
sha256 over, per file in sorted order, the relative-path bytes followed by
the content bytes. -/
def hashProposal (files : ArtifactDir) : List Nat :=
  sha256 (files.map fun f => strBytes f.1 ++ f.2).flatten

/-- Ledger.append (octobot/memory/ledger.py lines 38-48): build the entry
with the artifact digest and the supplied fields.  recordedAt is the
external timestamp() value; writing the JSON line to the ledger file is
the append itself and the entry is returned. -/
def ledgerAppend (files : ArtifactDir) (proposalId status proposer recordedAt : String) :
    LedgerEntry :=
  { proposal_id := proposalId
    proposer := proposer
    status := status
    digest := hashProposal files
    recorded_at := recordedAt }

/-- One physical line of the ledger file as Ledger.iter_entries classifies
it (octobot/memory/ledger.py lines 50-63): blank after strip, a line whose
json.loads succeeds and yields valid LedgerEntry keyword arguments, or a
malformed line on which json.loads (or the LedgerEntry constructor)
raises. -/
inductive LedgerLine where
  | blank
  | entry (e : LedgerEntry)
  | malformed
deriving Repr, DecidableEq

/-- Ledger.iter_entries (octobot/memory/ledger.py lines 50-63) as a run of
the generator to exhaustion: the entries yielded in order, paired with
true exactly when the run ends in a raised decode error instead of normal
exhaustion.  Blank lines are skipped; a malformed line raises at the point
it is reached, after the preceding entries were yielded. -/
def iterEntries : List LedgerLine → List LedgerEntry × Bool
  | [] => ([], false)
  | LedgerLine.blank :: rest => iterEntries rest
  | LedgerLine.entry e :: rest =>
    let r := iterEntries rest
    (e :: r.1, r.2)
  | LedgerLine.malformed :: _ => ([], true)

/-- The well-formed entries of the lines before the first malformed one. -/
def cleanEntries : List LedgerLine → List LedgerEntry
  | [] => []
  | LedgerLine.blank :: rest => cleanEntries rest
  | LedgerLine.entry e :: rest => e :: cleanEntries rest
  | LedgerLine.malformed :: _ => []

/-- Whether some malformed line occurs in the file. -/
def anyMalformed : List LedgerLine → Bool
  | [] => false
  | LedgerLine.blank :: rest => anyMalformed rest
  | LedgerLine.entry _ :: rest => anyMalformed rest
  | LedgerLine.malformed :: _ => true

/-! ## Static analyzer (laws/validator.py) -/

mutual
/-- The abstract syntax nodes _LawVisitor dispatches on (laws/validator.py
lines 26-73).  The importStmt node carries the alias names of an Import
statement; the importFrom node carries the module of an ImportFrom
(already "" when the module is None); call carries the qualified name the
visitor computes from the
func expression together with the child nodes generic_visit will walk;
globalStmt carries the names of a Global statement; other is any other
node with its children. -/
inductive Node where
  | importStmt (names : List String)
  | importFrom (module : String)
  | call (qualname : String) (children : NodeList)
  | globalStmt (names : List String)
  | other (children : NodeList)

inductive NodeList where
  | nil
  | cons (head : Node) (tail : NodeList)
end

/-- The root of a dotted name: name.split(".")[0]. -/
def rootName (s : String) : String :=
  String.mk ((splitChars '.' s.data).headD [])

/-- The errors visit_Import records for one list of alias names. -/
def importErrors (forbiddenImports : List String) (names : List String) : List String :=
  (names.map fun n =>
    if forbiddenImports.contains (rootName n) then
      ["Forbidden import: " ++ rootName n]
    else []).flatten

/-- The errors visit_Global records for one list of names. -/
def globalErrors (names : List String) : List String :=
  (names.map fun n =>
    if strEndsWith (strUpper n) "TOKEN" then
      ["Global secret token variables are not allowed"]
    else []).flatten

mutual
/-- _LawVisitor.visit (laws/validator.py lines 26-73): the errors list the
visitor accumulates, in traversal order.  forbiddenCalls and
forbiddenImports are the two sets the constructor builds, modelled as
lists queried only by membership.  Each visit method records its own
violations and then generic_visit descends into the children. -/
def visitErrors (forbiddenCalls forbiddenImports : List String) : Node → List String
  | Node.importStmt names => importErrors forbiddenImports names
  | Node.importFrom module =>
    if forbiddenImports.contains (rootName module) then
      ["Forbidden import from: " ++ rootName module]
    else []
  | Node.call qualname children =>
    (if forbiddenCalls.contains qualname then
      ["Forbidden call detected: " ++ qualname]
    else []) ++ visitErrorsList forbiddenCalls forbiddenImports children
  | Node.globalStmt names => globalErrors names
  | Node.other children => visitErrorsList forbiddenCalls forbiddenImports children

def visitErrorsList (forbiddenCalls forbiddenImports : List String) :
    NodeList → List String
  | NodeList.nil => []
  | NodeList.cons n ns =>
    visitErrors forbiddenCalls forbiddenImports n ++
      visitErrorsList forbiddenCalls forbiddenImports ns
end

/-- analyze_source (laws/validator.py lines 84-88): run the visitor and
raise ValueError joining the errors when any were recorded. -/
def analyzeSource (forbiddenCalls forbiddenImports : List String) (tree : Node) :
    Except String Unit :=
  let errs := visitErrors forbiddenCalls forbiddenImports tree
  if errs.isEmpty then Except.ok ()
  else Except.error (String.intercalate "; " errs)

/-! ## Theorems -/

/-- C2 counterexample: the claim says any case variant of "approved", such
as "Approved", is denied for code_merge; in the code _is_allowed lowercases
the context first, so enforcing code_merge with context "Approved" is
allowed and returns normally. -/
theorem code_merge_case_variant_allowed_cex :
    (enforce [{ name := "code_merge", description := "Merges need approval" }]
      [] "code_merge" "Approved").2 = Except.ok true := by
  rfl

/-- C2 (amended): enforcing the code_merge rule allows the action exactly
when the lowercased context equals "approved" (case-insensitive equality,
so "Approved" and "APPROVED" are allowed); any context whose lowercasing
differs is denied with the rule's description. -/
theorem code_merge_allows_iff_lowercase_approved (desc ctx : String)
    (agents : List String) :
    ((enforce [{ name := "code_merge", description := desc }] agents
        "code_merge" ctx).2 = Except.ok true ↔ strLower ctx = "approved") ∧
    ((enforce [{ name := "code_merge", description := desc }] agents
        "code_merge" ctx).2 = Except.error desc ↔ strLower ctx ≠ "approved") := by
  by_cases h : strLower ctx = "approved" <;>
    simp [enforce, isAllowed, List.find?, h]

/-- C8: for every catalog containing the requested rule name, enforce
writes exactly one audit Decision carrying the rule name, outcome,
description and context; it does so both when the action is allowed (the
call returns ok true) and when it is denied (the call raises the rule's
description), the deny decision being recorded in the audit trail of the
erroring call. -/
theorem enforce_records_one_decision (rules : List Rule) (agents : List String)
    (ruleName context : String) (r : Rule)
    (hfind : rules.find? (fun x => x.name = ruleName) = some r) :
    (enforce rules agents ruleName context).1 =
      [{ rule := r.name,
         status := if isAllowed agents r context then "allowed" else "blocked",
         description := r.description, context := context }] ∧
    ((enforce rules agents ruleName context).2 = Except.ok true ↔
      isAllowed agents r context = true) ∧
    (isAllowed agents r context = false →
      (enforce rules agents ruleName context).2 = Except.error r.description) := by
  by_cases h : isAllowed agents r context <;>
    simp [enforce, hfind, h]

/-- C8 witness: the theorem applied to the singleton catalog holding
code_merge, at an allowed and at a blocked context. -/
theorem enforce_records_one_decision_witness :
    (enforce [{ name := "code_merge", description := "d" }] [] "code_merge"
      "approved").1 =
      [{ rule := "code_merge",
         status := if isAllowed [] { name := "code_merge", description := "d" }
            "approved" then "allowed" else "blocked",
         description := "d", context := "approved" }] ∧
    ((enforce [{ name := "code_merge", description := "d" }] [] "code_merge"
      "approved").2 = Except.ok true ↔
      isAllowed [] { name := "code_merge", description := "d" } "approved" = true) ∧
    (isAllowed [] { name := "code_merge", description := "d" } "approved" = false →
      (enforce [{ name := "code_merge", description := "d" }] [] "code_merge"
        "approved").2 = Except.error "d") :=
  enforce_records_one_decision [{ name := "code_merge", description := "d" }] []
    "code_merge" "approved" { name := "code_merge", description := "d" } (by decide)

/-- C9: every ValidationReport produced by validate_proposal has its
compliant flag true exactly when its issues list is empty. -/
theorem validation_report_compliant_iff_issues_empty (quality : QualityGates)
    (p : ProposalInput) :
    (validateProposal quality p).compliant = true ↔
      (validateProposal quality p).issues = [] := by
  simp [validateProposal, List.isEmpty_iff]

/-- C10: a rule name present in the catalog but distinct from the four
dispatched names (external_request, filesystem_write, code_merge,
agent_entry) falls through to the default True branch of _is_allowed, so
enforce allows every context under it, recording an allowed decision. -/
theorem undispatched_rule_name_allows_all_contexts (rules : List Rule)
    (agents : List String) (ruleName context : String) (r : Rule)
    (hfind : rules.find? (fun x => x.name = ruleName) = some r)
    (hnd : r.name ∉ ["external_request", "filesystem_write", "code_merge",
      "agent_entry"]) :
    enforce rules agents ruleName context =
      ([{ rule := r.name, status := "allowed", description := r.description,
          context := context }], Except.ok true) := by
  simp only [List.mem_cons, List.mem_singleton, not_or] at hnd
  obtain ⟨h1, h2, h3, h4⟩ := hnd
  simp [enforce, hfind, isAllowed, h1, h2, h3, h4]

/-- C10 witness: the theorem applied to a catalog holding the rule name
mystery_rule, which is not dispatched, at an arbitrary context. -/
theorem undispatched_rule_name_allows_all_contexts_witness :
    enforce [{ name := "mystery_rule", description := "d" }] [] "mystery_rule"
      "anything at all" =
      ([{ rule := "mystery_rule", status := "allowed", description := "d",
          context := "anything at all" }], Except.ok true) :=
  undispatched_rule_name_allows_all_contexts
    [{ name := "mystery_rule", description := "d" }] [] "mystery_rule"
    "anything at all" { name := "mystery_rule", description := "d" }
    (by decide) (by decide)

/-- C1: evaluation of the legacy orchestrator at the failing input.  With
proposal p1 present and no validation report cached (the cache is empty),
async_approve_proposal still performs the approval side effects: the
proposal status becomes "approved" and the applied commit is returned.
The validation check is skipped entirely, so the operation does not fail
closed as the claim requires; the refactored orchestrator's header
documents this as the fixed "approval bypass without validator
confirmation". -/
theorem legacy_approval_without_validation_fails_open :
    dictGet (OrchState.mk [("p1", { status := "awaiting_approval", metaCoverage := 1/2 })]
        [] []).validationReports "p1" = none ∧
    (legacyApprove (OrchState.mk [("p1", { status := "awaiting_approval", metaCoverage := 1/2 })]
        [] []) "p1" "passed" (some "c0")).2 = some "c0" ∧
    dictGet (legacyApprove (OrchState.mk
        [("p1", { status := "awaiting_approval", metaCoverage := 1/2 })] [] [])
        "p1" "passed" (some "c0")).1.proposals "p1" =
      some { status := "approved", metaCoverage := 1/2 } :=
  ⟨rfl, rfl, rfl⟩

/-- C3: evaluation of the lifecycle at the failing inputs.  First, a
compliant report with coverage 0.95 drives _handle_validated to store the
percent value 95.0 in the proposal metadata - a stored coverage outside
[0,1], though _normalize maps 95 back to 0.95 (the repository's own
test_coverage_normalization.py expects 0.95 to be stored).  Second, a
compliant report with coverage 0.5 still advances the proposal to
awaiting_approval even though 0.5 < 0.9: mark_presented is called
unconditionally after the compliance check, so the coverage gate does not
guard advancement past Validated. -/
theorem validated_lifecycle_stores_unclamped_percent :
    dictGet (handleValidated (OrchState.mk
        [("p1", { status := "validated", metaCoverage := 19/20 })] [] []) "p1"
        { proposal_id := "p1", compliant := true, issues := [], coverage := 19/20,
          summary := "s" }).proposals "p1" =
      some { status := "awaiting_approval", metaCoverage := 95 } ∧
    ¬ ((95 : Rat) ≤ 1) ∧
    normalizeCoverage 95 = 19/20 ∧
    dictGet (handleValidated (OrchState.mk
        [("p2", { status := "validated", metaCoverage := 1/2 })] [] []) "p2"
        { proposal_id := "p2", compliant := true, issues := [], coverage := 1/2,
          summary := "s" }).proposals "p2" =
      some { status := "awaiting_approval", metaCoverage := 1/2 } ∧
    ((1 : Rat)/2) < 9/10 := by
  refine ⟨?_, by norm_num, by norm_num [normalizeCoverage, roundHalfEven4], ?_, by norm_num⟩
  · norm_num [handleValidated, markReadyForReview, markPresented, modifyProposal,
      dictGet, dictSet, List.find?]
  · norm_num [handleValidated, markReadyForReview, markPresented, modifyProposal,
      dictGet, dictSet, List.find?]

/-- C4 counterexample: the claim says approving a proposal whose cached
validation coverage is below 0.90 always fails with a LifecycleViolation
error; in the legacy orchestrator the approval of p1 with cached coverage
0.5 < 0.9 succeeds outright - the status becomes "approved" and a commit
is returned, with no error of any kind. -/
theorem low_coverage_approval_not_error_cex :
    (legacyApprove (OrchState.mk [("p1", { status := "awaiting_approval", metaCoverage := 1/2 })]
        [("p1", { proposal_id := "p1", compliant := true, issues := [], coverage := 1/2,
                  summary := "s" })] []) "p1" "passed" (some "c1")).2 = some "c1" ∧
    dictGet (legacyApprove (OrchState.mk
        [("p1", { status := "awaiting_approval", metaCoverage := 1/2 })]
        [("p1", { proposal_id := "p1", compliant := true, issues := [], coverage := 1/2,
                  summary := "s" })] []) "p1" "passed" (some "c1")).1.proposals "p1" =
      some { status := "approved", metaCoverage := 1/2 } ∧
    ((1 : Rat)/2) < 9/10 :=
  ⟨rfl, rfl, by norm_num⟩

/-- C4 (amended): in the refactored orchestrator, approving a proposal
whose cached validation coverage is below 0.9 is rejected for every
approver and every collaborator outcome, by returning None with the state
unchanged (no approval side effects); the rejection is not signalled with
a LifecycleViolation error - no such error type exists - and the legacy
orchestrator performs no coverage check at approval at all. -/
theorem refactor_low_coverage_approval_returns_none (st : OrchState) (pid : String)
    (freshReport report : ValidationReport) (testStatus : String)
    (applyResult : Option String) (r : ProposalRec)
    (hp : dictGet st.proposals pid = some r)
    (hc : dictGet st.validationReports pid = some report)
    (hcov : report.coverage < 9/10) :
    refactorApprove st pid freshReport testStatus applyResult = (st, Except.ok none) := by
  have hnot : ¬ ((9 : Rat)/10 ≤ report.coverage) := not_le.mpr hcov
  by_cases hcomp : report.compliant <;>
    simp [refactorApprove, hp, hc, hcomp, hcov, hnot]

/-- C4 witness: the amended theorem applied to a concrete state holding
p1 with a cached compliant report of coverage 0.5. -/
theorem refactor_low_coverage_approval_returns_none_witness :
    refactorApprove (OrchState.mk
        [("p1", { status := "awaiting_approval", metaCoverage := 1/2 })]
        [("p1", { proposal_id := "p1", compliant := true, issues := [], coverage := 1/2,
                  summary := "s" })] []) "p1"
        { proposal_id := "p1", compliant := false, issues := ["x"], coverage := 0,
          summary := "" } "passed" (some "c1") =
      (OrchState.mk [("p1", { status := "awaiting_approval", metaCoverage := 1/2 })]
        [("p1", { proposal_id := "p1", compliant := true, issues := [], coverage := 1/2,
                  summary := "s" })] [], Except.ok none) :=
  refactor_low_coverage_approval_returns_none _ "p1" _ _ "passed" (some "c1")
    { status := "awaiting_approval", metaCoverage := 1/2 } rfl rfl (by norm_num)

/-- C5 counterexample: the claim says iterating the ledger never raises
and malformed trailing entries are skipped; on a file holding one
well-formed entry followed by a malformed (truncated) line, iter_entries
yields the first entry and then raises the JSON decode error instead of
skipping the bad line. -/
theorem iter_entries_raises_on_malformed_cex :
    iterEntries [LedgerLine.entry
        { proposal_id := "p1", proposer := "engineers", status := "created",
          digest := [0], recorded_at := "t0" },
      LedgerLine.malformed] =
      ([{ proposal_id := "p1", proposer := "engineers", status := "created",
          digest := [0], recorded_at := "t0" }], true) := by
  decide

/-- C5 (amended): for every ledger file content, iterating the entries
skips blank lines and yields exactly the well-formed entries that precede
the first malformed line, in order; the iteration raises a decode error
exactly when a malformed line is present, rather than skipping malformed
trailing entries. -/
theorem iter_entries_yields_clean_then_raises (lines : List LedgerLine) :
    iterEntries lines = (cleanEntries lines, anyMalformed lines) := by
  induction lines with
  | nil => rfl
  | cons l rest ih =>
    cases l <;> simp [iterEntries, cleanEntries, anyMalformed, ih]

/-- The digest stream splits around one artifact file. -/
theorem hashProposal_append (pre suf : ArtifactDir) (f : String × List Nat) :
    hashProposal (pre ++ f :: suf) =
      (hashProposal pre ++ (strBytes f.1 ++ f.2)) ++ hashProposal suf := by
  simp [hashProposal, sha256]

/-- C6: ledger appends are digest-deterministic and content-sensitive:
two sequential append calls for the same proposal over byte-identical
artifact directories produce entries with identical content digests
(whatever the two record times are), and changing the content of a single
file between the two appends - the surrounding files and all paths
unchanged - produces entries with different digests. -/
theorem ledger_digest_deterministic_and_sensitive (files pre suf : ArtifactDir)
    (path : String) (c c' : List Nat) (pid status proposer t1 t2 t3 t4 : String)
    (hne : c ≠ c') :
    (ledgerAppend files pid status proposer t1).digest =
      (ledgerAppend files pid status proposer t2).digest ∧
    (ledgerAppend (pre ++ (path, c) :: suf) pid status proposer t3).digest ≠
      (ledgerAppend (pre ++ (path, c') :: suf) pid status proposer t4).digest := by
  constructor
  · rfl
  · intro h
    apply hne
    simp only [ledgerAppend, hashProposal_append] at h
    have h2 := List.append_cancel_right h
    have h3 := List.append_cancel_left h2
    exact List.append_cancel_left h3

/-- C6 witness: the theorem applied to concrete one-file artifact
directories, the second append changing the single file's bytes. -/
theorem ledger_digest_deterministic_and_sensitive_witness :
    (ledgerAppend [("a.txt", [104, 105])] "p1" "created" "engineers" "t1").digest =
      (ledgerAppend [("a.txt", [104, 105])] "p1" "created" "engineers" "t2").digest ∧
    (ledgerAppend ([] ++ ("a.txt", [104, 105]) :: []) "p1" "created" "engineers"
        "t3").digest ≠
      (ledgerAppend ([] ++ ("a.txt", [104, 106]) :: []) "p1" "created" "engineers"
        "t4").digest :=
  ledger_digest_deterministic_and_sensitive [("a.txt", [104, 105])] [] [] "a.txt"
    [104, 105] [104, 106] "p1" "created" "engineers" "t1" "t2" "t3" "t4" (by decide)

mutual
/-- The visitor's error list depends on the two forbidden sets only
through membership, so the set representation (in particular iteration
order) cannot leak into the violations. -/
theorem visitErrors_membership_eq (fc1 fc2 fi1 fi2 : List String)
    (hc : ∀ s, fc1.contains s = fc2.contains s)
    (hi : ∀ s, fi1.contains s = fi2.contains s) :
    (n : Node) → visitErrors fc1 fi1 n = visitErrors fc2 fi2 n
  | Node.importStmt names => by
    simp only [visitErrors, importErrors, hi]
  | Node.importFrom m => by
    simp only [visitErrors, hi]
  | Node.call q children => by
    simp only [visitErrors, hc q,
      visitErrorsList_membership_eq fc1 fc2 fi1 fi2 hc hi children]
  | Node.globalStmt names => by
    simp only [visitErrors]
  | Node.other children => by
    simp only [visitErrors,
      visitErrorsList_membership_eq fc1 fc2 fi1 fi2 hc hi children]

/-- Companion of visitErrors_membership_eq for child lists. -/
theorem visitErrorsList_membership_eq (fc1 fc2 fi1 fi2 : List String)
    (hc : ∀ s, fc1.contains s = fc2.contains s)
    (hi : ∀ s, fi1.contains s = fi2.contains s) :
    (ns : NodeList) → visitErrorsList fc1 fi1 ns = visitErrorsList fc2 fi2 ns
  | NodeList.nil => rfl
  | NodeList.cons n ns => by
    simp only [visitErrorsList,
      visitErrors_membership_eq fc1 fc2 fi1 fi2 hc hi n,
      visitErrorsList_membership_eq fc1 fc2 fi1 fi2 hc hi ns]
end

/-- C7: the static analyzer is deterministic - on one and the same parse
tree, two runs whose forbidden-call and forbidden-import sets agree on
membership (in particular two runs on identical input) produce the
identical violation list, same order and same message content, and
analyze_source accordingly returns the identical outcome. -/
theorem analyze_deterministic_violation_list (fc1 fc2 fi1 fi2 : List String)
    (tree : Node) (hc : ∀ s, fc1.contains s = fc2.contains s)
    (hi : ∀ s, fi1.contains s = fi2.contains s) :
    visitErrors fc1 fi1 tree = visitErrors fc2 fi2 tree ∧
    analyzeSource fc1 fi1 tree = analyzeSource fc2 fi2 tree := by
  have h := visitErrors_membership_eq fc1 fc2 fi1 fi2 hc hi tree
  exact ⟨h, by simp only [analyzeSource, h]⟩

/-- C7 witness: the theorem applied to two runs with the same forbidden
sets on the tree of a module importing os. -/
theorem analyze_deterministic_violation_list_witness :
    visitErrors ["exec"] ["os"] (Node.importStmt ["os"]) =
      visitErrors ["exec"] ["os"] (Node.importStmt ["os"]) ∧
    analyzeSource ["exec"] ["os"] (Node.importStmt ["os"]) =
      analyzeSource ["exec"] ["os"] (Node.importStmt ["os"]) :=
  analyze_deterministic_violation_list ["exec"] ["exec"] ["os"] ["os"]
    (Node.importStmt ["os"]) (fun _ => rfl) (fun _ => rfl)

end OctoBot
